import Mathlib

/-!
Verification of the weather MCP service (`src/weather.py`): a shallow
embedding of its JSON data handling, the two tool operations
(`get_alerts`, `get_forecast`), the instrumented fetcher
(`make_nws_request`) with its log-event trace, and the structured
`JSONFormatter`, together with proofs of the specified properties.

Python values decoded from JSON are modelled by the inductive `Json`;
Python exceptions (KeyError, TypeError, AttributeError) raised while a
value is manipulated are modelled by `Except PyErr`; the `try/except`
blocks of the source become total wrapper functions over those
`Except`-valued bodies.
-/

/-- A JSON document as decoded by `response.json()`.  Objects are
association lists; Python dicts decoded from JSON have unique keys, and
key lookup is modelled by first-match lookup. -/
inductive Json where
  | null : Json
  | bool : Bool → Json
  | num : Int → Json
  | str : String → Json
  | arr : List Json → Json
  | obj : List (String × Json) → Json

mutual

/-- Boolean equality on `Json` (structural). -/
def Json.beq : Json → Json → Bool
  | .null, .null => true
  | .bool a, .bool b => a == b
  | .num a, .num b => a == b
  | .str a, .str b => a == b
  | .arr a, .arr b => Json.beqList a b
  | .obj a, .obj b => Json.beqFields a b
  | _, _ => false

/-- Boolean equality on lists of `Json`. -/
def Json.beqList : List Json → List Json → Bool
  | [], [] => true
  | x :: xs, y :: ys => Json.beq x y && Json.beqList xs ys
  | _, _ => false

/-- Boolean equality on association lists of `Json`. -/
def Json.beqFields : List (String × Json) → List (String × Json) → Bool
  | [], [] => true
  | (k, v) :: xs, (l, w) :: ys => k == l && Json.beq v w && Json.beqFields xs ys
  | _, _ => false

end

mutual

theorem Json.eq_of_beq : ∀ {a b : Json}, Json.beq a b = true → a = b
  | .null, .null, _ => rfl
  | .bool _, .bool _, h => by
    simp only [Json.beq, beq_iff_eq] at h; exact congrArg Json.bool h
  | .num _, .num _, h => by
    simp only [Json.beq, beq_iff_eq] at h; exact congrArg Json.num h
  | .str _, .str _, h => by
    simp only [Json.beq, beq_iff_eq] at h; exact congrArg Json.str h
  | .arr _, .arr _, h => congrArg Json.arr (Json.eqList_of_beqList h)
  | .obj _, .obj _, h => congrArg Json.obj (Json.eqFields_of_beqFields h)

theorem Json.eqList_of_beqList : ∀ {a b : List Json}, Json.beqList a b = true → a = b
  | [], [], _ => rfl
  | _ :: _, _ :: _, h => by
    simp only [Json.beqList, Bool.and_eq_true] at h
    exact congrArg₂ List.cons (Json.eq_of_beq h.1) (Json.eqList_of_beqList h.2)

theorem Json.eqFields_of_beqFields :
    ∀ {a b : List (String × Json)}, Json.beqFields a b = true → a = b
  | [], [], _ => rfl
  | (_, _) :: _, (_, _) :: _, h => by
    simp only [Json.beqFields, Bool.and_eq_true, beq_iff_eq] at h
    refine congrArg₂ List.cons ?_ (Json.eqFields_of_beqFields h.2)
    exact congrArg₂ Prod.mk h.1.1 (Json.eq_of_beq h.1.2)

end

mutual

theorem Json.beq_refl : ∀ (a : Json), Json.beq a a = true
  | .null => rfl
  | .bool b => by simp [Json.beq]
  | .num _ => by simp [Json.beq]
  | .str _ => by simp [Json.beq]
  | .arr xs => Json.beqList_refl xs
  | .obj fs => Json.beqFields_refl fs

theorem Json.beqList_refl : ∀ (a : List Json), Json.beqList a a = true
  | [] => rfl
  | x :: xs => by
    simp only [Json.beqList, Bool.and_eq_true]
    exact ⟨Json.beq_refl x, Json.beqList_refl xs⟩

theorem Json.beqFields_refl : ∀ (a : List (String × Json)), Json.beqFields a a = true
  | [] => rfl
  | (k, v) :: ps => by
    simp only [Json.beqFields, Bool.and_eq_true, beq_self_eq_true, true_and]
    exact ⟨Json.beq_refl v, Json.beqFields_refl ps⟩

end

instance : DecidableEq Json := fun a b =>
  if h : Json.beq a b = true then isTrue (Json.eq_of_beq h)
  else isFalse (fun he => h (he ▸ Json.beq_refl a))

/-- Python exceptions that the embedded code can raise. -/
inductive PyErr where
  | keyError : PyErr
  | typeError : PyErr
  | attributeError : PyErr
deriving DecidableEq

/-- First-match lookup in an association list (Python dict access). -/
def lookupFirst : List (String × Json) → String → Option Json
  | [], _ => none
  | (k, v) :: rest, key => if k = key then some v else lookupFirst rest key

namespace Json

/-- Python truthiness of a decoded JSON value (`bool(x)`). -/
def truthy : Json → Bool
  | .null => false
  | .bool b => b
  | .num n => decide (n ≠ 0)
  | .str s => !s.isEmpty
  | .arr xs => !xs.isEmpty
  | .obj fs => !fs.isEmpty

/-- Python subscript `x[key]` with a string key: dict lookup raising
`KeyError` when the key is missing, `TypeError` on any non-dict. -/
def getItem : Json → String → Except PyErr Json
  | .obj fs, key =>
    match lookupFirst fs key with
    | some v => .ok v
    | none => .error .keyError
  | _, _ => .error .typeError

end Json

/-- Whether `pat` occurs as a prefix of `l` (character lists). -/
def headMatches : List Char → List Char → Bool
  | [], _ => true
  | _ :: _, [] => false
  | p :: ps, c :: cs => p == c && headMatches ps cs

/-- Whether `pat` occurs as a contiguous sublist of `l`. -/
def subList (pat : List Char) : List Char → Bool
  | [] => pat.isEmpty
  | c :: cs => headMatches pat (c :: cs) || subList pat cs

/-- Python `key in x` for a string key: key membership for a dict,
element membership for a list, substring test for a string, and
`TypeError` for the remaining types. -/
def pyContains (v : Json) (s : String) : Except PyErr Bool :=
  match v with
  | .obj fs => .ok (lookupFirst fs s).isSome
  | .arr xs => .ok (xs.any (fun x => Json.beq x (Json.str s)))
  | .str t => .ok (subList s.data t.data)
  | _ => .error .typeError

/-- Python iteration `for x in v`: list elements, string characters
(as one-character strings), dict keys; `TypeError` otherwise. -/
def pyIter : Json → Except PyErr (List Json)
  | .arr xs => .ok xs
  | .str s => .ok (s.data.map (fun c => Json.str (String.singleton c)))
  | .obj fs => .ok (fs.map (fun p => Json.str p.1))
  | _ => .error .typeError

/-- Python slice `v[:n]`: prefix of a list or string; `TypeError`
otherwise. -/
def pySlice (v : Json) (n : Nat) : Except PyErr Json :=
  match v with
  | .arr xs => .ok (.arr (xs.take n))
  | .str s => .ok (.str (String.mk (s.data.take n)))
  | _ => .error .typeError

mutual

/-- Python `str(x)` applied to a decoded JSON value, as used by f-string
interpolation in the source. -/
def pyStr : Json → String
  | .null => "None"
  | .bool true => "True"
  | .bool false => "False"
  | .num n => toString n
  | .str s => s
  | .arr xs => "[" ++ pyReprList xs ++ "]"
  | .obj fs => "\x7b" ++ pyReprFields fs ++ "\x7d"

/-- Python `repr(x)` for a decoded JSON value (container elements are
rendered with `repr`); string quoting detail is immaterial here and
strings are rendered bare. -/
def pyRepr : Json → String
  | .null => "None"
  | .bool true => "True"
  | .bool false => "False"
  | .num n => toString n
  | .str s => s
  | .arr xs => "[" ++ pyReprList xs ++ "]"
  | .obj fs => "\x7b" ++ pyReprFields fs ++ "\x7d"

/-- Comma-separated `repr` rendering of list elements. -/
def pyReprList : List Json → String
  | [] => ""
  | [x] => pyRepr x
  | x :: xs => pyRepr x ++ ", " ++ pyReprList xs

/-- Comma-separated `repr` rendering of dict entries. -/
def pyReprFields : List (String × Json) → String
  | [] => ""
  | [p] => p.1 ++ ": " ++ pyRepr p.2
  | p :: ps => p.1 ++ ": " ++ pyRepr p.2 ++ ", " ++ pyReprFields ps

end

/-- Sequential formatting of a list (a Python list comprehension over a
raising function): the results in order, or the first raised exception. -/
def mapExcept (f : Json → Except PyErr String) : List Json → Except PyErr (List String)
  | [] => .ok []
  | x :: xs => do
    let s ← f x
    let rest ← mapExcept f xs
    pure (s :: rest)

/-- Python `props.get(key, default)` followed by f-string conversion:
defined only on dicts (`AttributeError` otherwise), returning the found
value converted by `str()` or the default string. -/
def dictGetStr (v : Json) (key default : String) : Except PyErr String :=
  match v with
  | .obj fs =>
    .ok (match lookupFirst fs key with
         | some x => pyStr x
         | none => default)
  | _ => .error .attributeError

/-- `format_alert(feature)` from `src/weather.py`: reads
`feature["properties"]` (raising on a missing key or non-dict) and
renders the five fields with `.get` defaults. -/
def format_alert (feature : Json) : Except PyErr String := do
  let props ← feature.getItem "properties"
  let event ← dictGetStr props "event" "Unknown"
  let area ← dictGetStr props "areaDesc" "Unknown"
  let severity ← dictGetStr props "severity" "Unknown"
  let description ← dictGetStr props "description" "No description available"
  let instruction ← dictGetStr props "instruction" "No specific instructions provided"
  pure ("\nEvent: " ++ event ++ "\nArea: " ++ area ++ "\nSeverity: " ++ severity
        ++ "\nDescription: " ++ description ++ "\nInstructions: " ++ instruction ++ "\n")

/-- The body of the `try` block of `get_alerts`, as a function of the
fetch outcome `data` (the value returned by `make_nws_request`, which
never raises).  Possible exceptions of the body are surfaced in the
`Except` result.  The URL construction and the log statements of the
operation are pure and raise nothing, so they are omitted here; only the
returned string is modelled. -/
def getAlertsBody (data : Option Json) : Except PyErr String :=
  match data with
  | none => .ok "Unable to fetch alerts or no alerts found."
  | some d =>
    if d.truthy = false then .ok "Unable to fetch alerts or no alerts found."
    else do
      let hasF ← pyContains d "features"
      if hasF = false then
        pure "Unable to fetch alerts or no alerts found."
      else do
        let fs ← d.getItem "features"
        if fs.truthy = false then
          pure "No active alerts for this state."
        else do
          let items ← pyIter fs
          let alerts ← mapExcept format_alert items
          pure ("\n---\n".intercalate alerts)

/-- `get_alerts(state)` from `src/weather.py` as a function of the fetch
outcome: the `try/except Exception` wrapper around `getAlertsBody`. -/
def get_alerts (data : Option Json) : String :=
  match getAlertsBody data with
  | .ok s => s
  | .error _ => "An error occurred while fetching alerts."

/-- The body of the period-formatting f-string of `get_forecast`: each
key is read with a raising subscript and rendered by `str()`.  The
literal `Â°` reproduces the degree-sign bytes of the source. -/
def formatPeriod (period : Json) : Except PyErr String := do
  let name ← period.getItem "name"
  let temperature ← period.getItem "temperature"
  let temperatureUnit ← period.getItem "temperatureUnit"
  let windSpeed ← period.getItem "windSpeed"
  let windDirection ← period.getItem "windDirection"
  let detailedForecast ← period.getItem "detailedForecast"
  pure ("\n" ++ pyStr name ++ ":\nTemperature: " ++ pyStr temperature ++ "Â°"
        ++ pyStr temperatureUnit ++ "\nWind: " ++ pyStr windSpeed ++ " "
        ++ pyStr windDirection ++ "\nForecast: " ++ pyStr detailedForecast ++ "\n")

/-- The body of the `try` block of `get_forecast`, as a function of the
sequence of fetch outcomes (`fetch i` is the result of the `i`-th call to
`make_nws_request` inside this operation).  The second component counts
the fetches actually performed. -/
def getForecastBody (fetch : Nat → Option Json) : Except PyErr String × Nat :=
  match fetch 0 with
  | none => (.ok "Unable to fetch forecast data for this location.", 1)
  | some data =>
    if data.truthy = false then
      (.ok "Unable to fetch forecast data for this location.", 1)
    else
      match data.getItem "properties" >>= (fun p => p.getItem "forecast") with
      | .error e => (.error e, 1)
      | .ok _forecastUrl =>
        match fetch 1 with
        | none => (.ok "Unable to fetch detailed forecast.", 2)
        | some forecastData =>
          if forecastData.truthy = false then
            (.ok "Unable to fetch detailed forecast.", 2)
          else
            (do
              let props ← forecastData.getItem "properties"
              let periods ← props.getItem "periods"
              let sliced ← pySlice periods 5
              let items ← pyIter sliced
              let forecasts ← mapExcept formatPeriod items
              pure ("\n---\n".intercalate forecasts), 2)

/-- `get_forecast(latitude, longitude)` from `src/weather.py` as a
function of the fetch outcomes: the `try/except Exception` wrapper around
`getForecastBody`, paired with the number of fetches performed. -/
def get_forecast (fetch : Nat → Option Json) : String × Nat :=
  match getForecastBody fetch with
  | (.ok s, n) => (s, n)
  | (.error _, n) => ("An error occurred while fetching forecast.", n)

/-- Python `logging` severity levels used by the source; `toNat` gives the
numeric values of the `logging` module. -/
inductive LogLevel where
  | debug : LogLevel
  | info : LogLevel
  | warning : LogLevel
  | error : LogLevel
deriving DecidableEq

/-- The numeric value of a severity level (`logging.DEBUG = 10`, …). -/
def LogLevel.toNat : LogLevel → Nat
  | .debug => 10
  | .info => 20
  | .warning => 30
  | .error => 40

/-- Which log statement of `make_nws_request` produced a record. -/
inductive FetchLogTag where
  | requesting : FetchLogTag
  | requestSuccess : Nat → FetchLogTag
  | httpError : Nat → FetchLogTag
  | timeoutError : FetchLogTag
  | unexpectedError : FetchLogTag
deriving DecidableEq

/-- One log record produced (and passed the logger threshold) during a
fetch. -/
structure LogEvent where
  level : LogLevel
  tag : FetchLogTag
deriving DecidableEq

/-- `logger.<level>(...)`: the record is emitted exactly when its level
is at or above the logger threshold (`logger.setLevel`), and dropped
otherwise. -/
def emit (threshold : LogLevel) (ev : LogEvent) : List LogEvent :=
  if threshold.toNat ≤ ev.level.toNat then [ev] else []

/-- The outcome of the `await client.get(url, ...)` call together with
`response.raise_for_status()` and `response.json()`:
a response carries its HTTP status code and, when the body decodes as
JSON, the decoded document (`none` models a decode failure);
`timeout` models `httpx.TimeoutException`; `connectionError` models any
other exception raised by the transport. -/
inductive HttpResult where
  | response : Nat → Option Json → HttpResult
  | timeout : HttpResult
  | connectionError : HttpResult

/-- The exception classes distinguished by the `except` clauses of
`make_nws_request`: `httpx.HTTPStatusError`, `httpx.TimeoutException`,
and the catch-all `Exception`. -/
inductive FetchExc where
  | httpStatusError : Nat → FetchExc
  | timeoutExc : FetchExc
  | otherExc : FetchExc

/-- The `try` block of `make_nws_request`: the `logger.debug` record, the
HTTP GET, `raise_for_status` (httpx raises `HTTPStatusError` on every
non-2xx status), the `logger.info` success record — emitted before
`response.json()` runs — and the JSON decoding, whose failure raises into
the catch-all handler.  Returns the raised exception or the decoded
document, together with the records emitted so far. -/
def makeNwsRequestTry (threshold : LogLevel) (w : HttpResult) :
    Except FetchExc Json × List LogEvent :=
  let dbg := emit threshold ⟨.debug, .requesting⟩
  match w with
  | .timeout => (.error .timeoutExc, dbg)
  | .connectionError => (.error .otherExc, dbg)
  | .response status body =>
    if 200 ≤ status ∧ status < 300 then
      match body with
      | some j => (.ok j, dbg ++ emit threshold ⟨.info, .requestSuccess status⟩)
      | none => (.error .otherExc, dbg ++ emit threshold ⟨.info, .requestSuccess status⟩)
    else (.error (.httpStatusError status), dbg)

/-- `make_nws_request(url)` from `src/weather.py`, as a function of the
logger threshold and the transport outcome: the `try` block wrapped by
the three `except` clauses, each of which logs one error record and
returns `None`.  The result is the returned value paired with the emitted
log records. -/
def make_nws_request (threshold : LogLevel) (w : HttpResult) :
    Option Json × List LogEvent :=
  match makeNwsRequestTry threshold w with
  | (.ok j, evs) => (some j, evs)
  | (.error (.httpStatusError status), evs) =>
    (none, evs ++ emit threshold ⟨.error, .httpError status⟩)
  | (.error .timeoutExc, evs) =>
    (none, evs ++ emit threshold ⟨.error, .timeoutError⟩)
  | (.error .otherExc, evs) =>
    (none, evs ++ emit threshold ⟨.error, .unexpectedError⟩)

/-- The double-quote character. -/
def qc : Char := Char.ofNat 34

/-- The backslash character. -/
def bsl : Char := Char.ofNat 92

/-- The opening curly brace character. -/
def openBrace : Char := Char.ofNat 123

/-- The closing curly brace character. -/
def closeBrace : Char := Char.ofNat 125

/-- Backspace (U+0008). -/
def ctrlB : Char := Char.ofNat 8

/-- Horizontal tab (U+0009). -/
def ctrlT : Char := Char.ofNat 9

/-- Line feed (U+000A). -/
def ctrlN : Char := Char.ofNat 10

/-- Form feed (U+000C). -/
def ctrlF : Char := Char.ofNat 12

/-- Carriage return (U+000D). -/
def ctrlR : Char := Char.ofNat 13

/-- The four lowercase hex digits of `n % 65536`, as printed by
Python's `\uXXXX` escapes. -/
def hex4 (n : Nat) : List Char :=
  [Nat.digitChar (n / 4096 % 16), Nat.digitChar (n / 256 % 16),
   Nat.digitChar (n / 16 % 16), Nat.digitChar (n % 16)]

/-- `json.dumps` escaping of one character (`ensure_ascii=True`, the
default): the two-character named escapes, literal printable ASCII, and
`\uXXXX` escapes with surrogate pairs above U+FFFF. -/
def escChar (c : Char) : List Char :=
  if c = qc then [bsl, qc]
  else if c = bsl then [bsl, bsl]
  else if c = ctrlB then [bsl, 'b']
  else if c = ctrlT then [bsl, 't']
  else if c = ctrlN then [bsl, 'n']
  else if c = ctrlF then [bsl, 'f']
  else if c = ctrlR then [bsl, 'r']
  else if 32 ≤ c.toNat ∧ c.toNat ≤ 126 then [c]
  else if c.toNat < 65536 then bsl :: 'u' :: hex4 c.toNat
  else bsl :: 'u' :: hex4 (55296 + (c.toNat - 65536) / 1024)
       ++ bsl :: 'u' :: hex4 (56320 + (c.toNat - 65536) % 1024)

/-- `json.dumps` escaping of a character sequence. -/
def escList (cs : List Char) : List Char := (cs.map escChar).flatten

/-- The decimal digits of a natural number, most significant first
(`str(n)` for `n ≥ 0`). -/
def natChars (n : Nat) : List Char :=
  if n = 0 then ['0'] else ((Nat.digits 10 n).map Nat.digitChar).reverse

/-- The decimal rendering of an integer (`str(n)`). -/
def intChars (i : Int) : List Char :=
  if i < 0 then '-' :: natChars i.natAbs else natChars i.toNat

/-- A serialized JSON string literal. -/
def dumpStr (s : String) : List Char := qc :: escList s.data ++ [qc]

mutual

/-- `json.dumps(v)` with the default separators `", "` and `": "` and
`ensure_ascii=True`, as a character sequence. -/
def dumpVal : Json → List Char
  | .null => "null".data
  | .bool true => "true".data
  | .bool false => "false".data
  | .num i => intChars i
  | .str s => dumpStr s
  | .arr xs => '[' :: dumpElems xs ++ [']']
  | .obj fs => openBrace :: dumpFields fs ++ [closeBrace]

/-- The comma-separated element list of a serialized JSON array. -/
def dumpElems : List Json → List Char
  | [] => []
  | [x] => dumpVal x
  | x :: xs => dumpVal x ++ ',' :: ' ' :: dumpElems xs

/-- The comma-separated member list of a serialized JSON object. -/
def dumpFields : List (String × Json) → List Char
  | [] => []
  | [p] => dumpStr p.1 ++ ':' :: ' ' :: dumpVal p.2
  | p :: ps => dumpStr p.1 ++ ':' :: ' ' :: dumpVal p.2 ++ ',' :: ' ' :: dumpFields ps

end

/-- `json.dumps(v)` as a string. -/
def Json.dumps (v : Json) : String := String.mk (dumpVal v)

/-- An exception attached to a log record (`record.exc_info`); its full
formatted stack trace — the text produced by
`''.join(traceback.format_exception(*record.exc_info))` — is carried
abstractly as a string. -/
structure ExcInfo where
  formattedTrace : String

/-- One `logging.LogRecord` as consumed by `JSONFormatter.format`: the
standard record attributes together with the optional `duration` and
`error_details` attributes injected via `extra=...`, and the optional
attached exception. -/
structure LogRecord where
  levelname : String
  name : String
  message : String
  filename : String
  lineno : Nat
  funcName : String
  process : Nat
  threadName : String
  excInfo : Option ExcInfo
  errorDetails : Option String
  duration : Option String

/-- The ambient state read by `JSONFormatter.format` besides the record:
the current wall-clock timestamp (`datetime.datetime.now().isoformat()`)
and the three context variables. -/
structure FormatContext where
  timestamp : String
  correlationId : String
  requestId : String
  userId : String

/-- The `log_record` dict built by `JSONFormatter.format` before
`json.dumps`, with `env` modelling `os.getenv`.  The `error_details`
member is appended from the attached exception's formatted stack trace
when one is present, else from the `error_details` attribute when set,
else omitted. -/
def formatFields (ctx : FormatContext) (env : String → Option String)
    (record : LogRecord) : List (String × Json) :=
  [("timestamp", .str ctx.timestamp),
   ("level", .str record.levelname),
   ("logger", .str record.name),
   ("message", .str record.message),
   ("correlation_id", .str ctx.correlationId),
   ("request_id", .str ctx.requestId),
   ("user_id", .str ctx.userId),
   ("file", .str (record.filename ++ ":" ++ String.mk (natChars record.lineno))),
   ("function", .str record.funcName),
   ("process", .num (record.process : Int)),
   ("thread", .str record.threadName),
   ("environment", .str ((env "ENV").getD "development")),
   ("app_version", .str ((env "APP_VERSION").getD "0.1.0")),
   ("host", .str ((env "HOSTNAME").getD "localhost")),
   ("duration", .str (record.duration.getD "0.0s"))]
  ++ (match record.excInfo with
      | some e => [("error_details", .str e.formattedTrace)]
      | none =>
        match record.errorDetails with
        | some s => [("error_details", .str s)]
        | none => [])

namespace JSONFormatter

/-- `JSONFormatter.format(record)` from `src/weather.py`: serialize the
`log_record` dict with `json.dumps`. -/
def format (ctx : FormatContext) (env : String → Option String)
    (record : LogRecord) : String :=
  Json.dumps (.obj (formatFields ctx env record))

end JSONFormatter

/-- Whether a character is JSON whitespace. -/
def isWsChar (c : Char) : Bool :=
  c.toNat = 32 || c.toNat = 9 || c.toNat = 10 || c.toNat = 13

/-- Skip JSON whitespace. -/
def skipWs (cs : List Char) : List Char := cs.dropWhile isWsChar

/-- Whether a character is a decimal digit. -/
def isDigitChar (c : Char) : Bool := 48 ≤ c.toNat && c.toNat ≤ 57

/-- The value of one hex digit, if any. -/
def hexCharVal (c : Char) : Option Nat :=
  if 48 ≤ c.toNat ∧ c.toNat ≤ 57 then some (c.toNat - 48)
  else if 97 ≤ c.toNat ∧ c.toNat ≤ 102 then some (c.toNat - 87)
  else if 65 ≤ c.toNat ∧ c.toNat ≤ 70 then some (c.toNat - 55)
  else none

/-- The value of a four-hex-digit group of a `\uXXXX` escape. -/
def hexVal4 (d1 d2 d3 d4 : Char) : Option Nat :=
  match hexCharVal d1, hexCharVal d2, hexCharVal d3, hexCharVal d4 with
  | some a, some b, some c, some d => some (((a * 16 + b) * 16 + c) * 16 + d)
  | _, _, _, _ => none

/-- The character denoted by a single-character JSON escape. -/
def unescapeSimple (e : Char) : Option Char :=
  if e = qc then some qc
  else if e = bsl then some bsl
  else if e = '/' then some '/'
  else if e = 'b' then some ctrlB
  else if e = 'f' then some ctrlF
  else if e = 'n' then some ctrlN
  else if e = 'r' then some ctrlR
  else if e = 't' then some ctrlT
  else none

/-- Parse the body of a JSON string literal (after the opening quote) up
to and including the closing quote, decoding escapes and recombining
surrogate pairs; fuelled (one unit per decoded character suffices). -/
def parseStringChars : Nat → List Char → Option (List Char × List Char)
  | 0, _ => none
  | _, [] => none
  | fuel + 1, c :: rest =>
    if c = qc then some ([], rest)
    else if c = bsl then
      match rest with
      | [] => none
      | e :: rest2 =>
        if e = 'u' then
          match rest2 with
          | d1 :: d2 :: d3 :: d4 :: rest3 =>
            match hexVal4 d1 d2 d3 d4 with
            | none => none
            | some n =>
              if 55296 ≤ n ∧ n ≤ 56319 then
                match rest3 with
                | b2 :: u2 :: e1 :: e2 :: e3 :: e4 :: rest4 =>
                  if b2 = bsl ∧ u2 = 'u' then
                    match hexVal4 e1 e2 e3 e4 with
                    | none => none
                    | some m =>
                      if 56320 ≤ m ∧ m ≤ 57343 then
                        match parseStringChars fuel rest4 with
                        | some (cs, r) =>
                          some (Char.ofNat (65536 + (n - 55296) * 1024 + (m - 56320)) :: cs, r)
                        | none => none
                      else none
                  else none
                | _ => none
              else if 56320 ≤ n ∧ n ≤ 57343 then none
              else
                match parseStringChars fuel rest3 with
                | some (cs, r) => some (Char.ofNat n :: cs, r)
                | none => none
          | _ => none
        else
          match unescapeSimple e with
          | none => none
          | some d =>
            match parseStringChars fuel rest2 with
            | some (cs, r) => some (d :: cs, r)
            | none => none
    else
      match parseStringChars fuel rest with
      | some (cs, r) => some (c :: cs, r)
      | none => none

/-- Parse a nonempty run of decimal digits as a natural number. -/
def parseNat (cs : List Char) : Option (Nat × List Char) :=
  let ds := cs.takeWhile isDigitChar
  if ds.isEmpty then none
  else some (ds.foldl (fun acc c => acc * 10 + (c.toNat - 48)) 0, cs.dropWhile isDigitChar)

mutual

/-- Parse one JSON value (objects, arrays, strings, integers, literals);
fuelled on nesting and on member/element counts. -/
def parseValue : Nat → List Char → Option (Json × List Char)
  | 0, _ => none
  | fuel + 1, cs =>
    match skipWs cs with
    | [] => none
    | c :: r =>
      if c = qc then
        match parseStringChars (r.length + 1) r with
        | some (s, r2) => some (.str (String.mk s), r2)
        | none => none
      else if c = openBrace then
        match skipWs r with
        | [] => none
        | c2 :: r2 =>
          if c2 = closeBrace then some (.obj [], r2)
          else
            match parseMembers fuel (c2 :: r2) with
            | some (fs, r3) => some (.obj fs, r3)
            | none => none
      else if c = '[' then
        match skipWs r with
        | [] => none
        | c2 :: r2 =>
          if c2 = ']' then some (.arr [], r2)
          else
            match parseElems fuel (c2 :: r2) with
            | some (xs, r3) => some (.arr xs, r3)
            | none => none
      else if isDigitChar c then
        match parseNat (c :: r) with
        | some (n, r2) => some (.num (n : Int), r2)
        | none => none
      else if c = '-' then
        match parseNat r with
        | some (n, r2) => some (.num (-(n : Int)), r2)
        | none => none
      else if c = 'n' then
        match r with
        | 'u' :: 'l' :: 'l' :: r2 => some (.null, r2)
        | _ => none
      else if c = 't' then
        match r with
        | 'r' :: 'u' :: 'e' :: r2 => some (.bool true, r2)
        | _ => none
      else if c = 'f' then
        match r with
        | 'a' :: 'l' :: 's' :: 'e' :: r2 => some (.bool false, r2)
        | _ => none
      else none

/-- Parse the nonempty member list of a JSON object, consuming the
closing brace. -/
def parseMembers : Nat → List Char → Option (List (String × Json) × List Char)
  | 0, _ => none
  | fuel + 1, cs =>
    match skipWs cs with
    | [] => none
    | c :: r =>
      if c = qc then
        match parseStringChars (r.length + 1) r with
        | some (kcs, r2) =>
          (match skipWs r2 with
           | [] => none
           | c1 :: r3 =>
             if c1 = ':' then
               match parseValue fuel r3 with
               | some (v, r4) =>
                 (match skipWs r4 with
                  | [] => none
                  | c2 :: r5 =>
                    if c2 = ',' then
                      match parseMembers fuel r5 with
                      | some (fs, r6) => some ((String.mk kcs, v) :: fs, r6)
                      | none => none
                    else if c2 = closeBrace then some ([(String.mk kcs, v)], r5)
                    else none)
               | none => none
             else none)
        | none => none
      else none

/-- Parse the nonempty element list of a JSON array, consuming the
closing bracket. -/
def parseElems : Nat → List Char → Option (List Json × List Char)
  | 0, _ => none
  | fuel + 1, cs =>
    match parseValue fuel cs with
    | some (v, r) =>
      (match skipWs r with
       | [] => none
       | c :: r2 =>
         if c = ',' then
           match parseElems fuel r2 with
           | some (xs, r3) => some (v :: xs, r3)
           | none => none
         else if c = ']' then some ([v], r2)
         else none)
    | none => none

end

/-- `json.loads(s)` for the JSON subset emitted by `Json.dumps`: parse
one value and require only whitespace to remain. -/
def Json.parse (s : String) : Option Json :=
  match parseValue (s.data.length + 1) s.data with
  | some (j, rest) => if skipWs rest = [] then some j else none
  | none => none

/-- Whether a JSON value is a string or an integer (the only member
value shapes `JSONFormatter.format` serializes). -/
def flatVal : Json → Bool
  | .str _ => true
  | .num _ => true
  | _ => false

/-- The fixed (always present, never null) members of the serialized log
record, as listed by the data model: timestamp, severity level, logger
name, message, file/line, function, process, thread, the three call
context ids, environment, application version and host. -/
def fixedLogFields : List String :=
  ["timestamp", "level", "logger", "message", "correlation_id", "request_id",
   "user_id", "file", "function", "process", "thread", "environment",
   "app_version", "host"]

def exFeature : Json := .obj [("properties", .obj [("event", .str "Flood Warning")])]

def exAlertsFields : List (String × Json) := [("features", .arr [exFeature])]

def exAlertText : String :=
  "\nEvent: Flood Warning\nArea: Unknown\nSeverity: Unknown" ++
  "\nDescription: No description available" ++
  "\nInstructions: No specific instructions provided\n"

def exPeriod : Json :=
  .obj [("name", .str "Tonight"), ("temperature", .num 70),
        ("temperatureUnit", .str "F"), ("windSpeed", .str "5 mph"),
        ("windDirection", .str "NW"), ("detailedForecast", .str "Clear")]

def exPeriodText : String :=
  "\nTonight:\nTemperature: 70Â°F\nWind: 5 mph NW\nForecast: Clear\n"

def exPeriods : List Json :=
  [exPeriod, exPeriod, exPeriod, exPeriod, exPeriod, exPeriod, exPeriod]

def exPoints : Json := .obj [("properties", .obj [("forecast", .str "u")])]

def exForecastPayload : Json := .obj [("properties", .obj [("periods", .arr exPeriods)])]

def exFetch : Nat → Option Json :=
  fun i => if i = 0 then some exPoints else some exForecastPayload

def exCtx : FormatContext :=
  { timestamp := "2025-01-01T00:00:00", correlationId := "c1",
    requestId := "r1", userId := "unknown" }

def exEnv : String → Option String := fun _ => none

def exRecord : LogRecord :=
  { levelname := "INFO", name := "WeatherService", message := "msg",
    filename := "weather.py", lineno := 88, funcName := "make_nws_request",
    process := 1234, threadName := "MainThread", excInfo := none,
    errorDetails := none, duration := none }

def exExc : ExcInfo := { formattedTrace := "Traceback: boom" }

def exRecordExc : LogRecord :=
  { levelname := "ERROR", name := "WeatherService", message := "boom",
    filename := "weather.py", lineno := 93, funcName := "make_nws_request",
    process := 1234, threadName := "MainThread", excInfo := some exExc,
    errorDetails := some "supplied details", duration := none }

/-- The validity bounds of a Unicode scalar value, in `Nat` form. -/
theorem char_valid_nat (c : Char) :
    c.toNat < 55296 ∨ (57343 < c.toNat ∧ c.toNat < 1114112) := c.valid

/-- `hexCharVal` inverts `Nat.digitChar` on hex digit values. -/

theorem hexCharVal_digitChar : ∀ k, k < 16 → hexCharVal (Nat.digitChar k) = some k := by
  decide

theorem hexVal4_hex4 {n : Nat} (h : n < 65536) :
    hexVal4 (Nat.digitChar (n / 4096 % 16)) (Nat.digitChar (n / 256 % 16))
      (Nat.digitChar (n / 16 % 16)) (Nat.digitChar (n % 16)) = some n := by
  have e1 := hexCharVal_digitChar (n / 4096 % 16) (by omega)
  have e2 := hexCharVal_digitChar (n / 256 % 16) (by omega)
  have e3 := hexCharVal_digitChar (n / 16 % 16) (by omega)
  have e4 := hexCharVal_digitChar (n % 16) (by omega)
  simp only [hexVal4, e1, e2, e3, e4, Option.some.injEq]
  omega

theorem parseStringChars_escList (s : List Char) :
    ∀ (rest : List Char) (fuel : Nat), s.length < fuel →
      parseStringChars fuel (escList s ++ qc :: rest) = some (s, rest) := by
  induction s with
  | nil =>
    intro rest fuel hf
    match fuel, hf with
    | f + 1, _ => simp [escList, parseStringChars]
  | cons c s ih =>
    intro rest fuel hf
    match fuel, hf with
    | f + 1, hf =>
    have hf' : s.length < f := by simp at hf; omega
    have hrec := ih rest f hf'
    have hesc : escList (c :: s) = escChar c ++ escList s := by simp [escList]
    rw [hesc]
    by_cases h1 : c = qc
    · subst h1
      simp [escChar, parseStringChars, unescapeSimple, hrec,
            (by decide : ¬ (bsl = qc)), (by decide : ¬ (qc = 'u'))]
    · by_cases h2 : c = bsl
      · subst h2
        simp [escChar, h1, parseStringChars, unescapeSimple, hrec,
              (by decide : ¬ (bsl = qc)), (by decide : ¬ (bsl = 'u'))]
      · by_cases h3 : c = ctrlB
        · subst h3
          simp [escChar, h1, h2, parseStringChars, unescapeSimple, hrec,
                (by decide : ¬ (bsl = qc)), (by decide : ¬ ('b' = 'u')),
                    (by decide : ¬ ('b' = qc)), (by decide : ¬ ('b' = bsl))]
        · by_cases h4 : c = ctrlT
          · subst h4
            simp [escChar, h1, h2, h3, parseStringChars, unescapeSimple, hrec,
                  (by decide : ¬ (bsl = qc)), (by decide : ¬ ('t' = 'u')),
                    (by decide : ¬ ('t' = qc)), (by decide : ¬ ('t' = bsl))]
          · by_cases h5 : c = ctrlN
            · subst h5
              simp [escChar, h1, h2, h3, h4, parseStringChars, unescapeSimple, hrec,
                    (by decide : ¬ (bsl = qc)), (by decide : ¬ ('n' = 'u')),
                    (by decide : ¬ ('n' = qc)), (by decide : ¬ ('n' = bsl))]
            · by_cases h6 : c = ctrlF
              · subst h6
                simp [escChar, h1, h2, h3, h4, h5, parseStringChars, unescapeSimple, hrec,
                      (by decide : ¬ (bsl = qc)), (by decide : ¬ ('f' = 'u')),
                    (by decide : ¬ ('f' = qc)), (by decide : ¬ ('f' = bsl))]
              · by_cases h7 : c = ctrlR
                · subst h7
                  simp [escChar, h1, h2, h3, h4, h5, h6, parseStringChars, unescapeSimple, hrec,
                        (by decide : ¬ (bsl = qc)), (by decide : ¬ ('r' = 'u')),
                    (by decide : ¬ ('r' = qc)), (by decide : ¬ ('r' = bsl))]
                · by_cases h8 : 32 ≤ c.toNat ∧ c.toNat ≤ 126
                  · simp [escChar, h1, h2, h3, h4, h5, h6, h7, h8, parseStringChars, hrec]
                  · have hv := char_valid_nat c
                    by_cases h9 : c.toNat < 65536
                    · simp only [escChar, if_neg h1, if_neg h2, if_neg h3, if_neg h4,
                        if_neg h5, if_neg h6, if_neg h7, if_neg h8, if_pos h9, hex4]
                      simp [parseStringChars, (by decide : ¬ (bsl = qc)),
                            hexVal4_hex4 h9, hrec, Char.ofNat_toNat]
                      rw [if_neg (by omega : ¬ (55296 ≤ c.toNat ∧ c.toNat ≤ 56319)),
                          if_neg (by omega : ¬ (56320 ≤ c.toNat ∧ c.toNat ≤ 57343))]
                    · simp only [escChar, if_neg h1, if_neg h2, if_neg h3, if_neg h4,
                        if_neg h5, if_neg h6, if_neg h7, if_neg h8, if_neg h9, hex4]
                      have hhi : 55296 + (c.toNat - 65536) / 1024 < 65536 := by omega
                      have hlo : 56320 + (c.toNat - 65536) % 1024 < 65536 := by omega
                      simp only [List.cons_append, List.append_assoc, List.nil_append]
                      rw [parseStringChars]
                      rw [if_neg (by decide : ¬ (bsl = qc)), if_pos rfl]
                      rw [if_pos rfl]
                      simp only [hexVal4_hex4 hhi]
                      rw [if_pos (by omega : 55296 ≤ 55296 + (c.toNat - 65536) / 1024 ∧
                            55296 + (c.toNat - 65536) / 1024 ≤ 56319)]
                      rw [if_pos (⟨trivial, trivial⟩ : True ∧ True)]
                      simp only [hexVal4_hex4 hlo]
                      rw [if_pos (by omega : 56320 ≤ 56320 + (c.toNat - 65536) % 1024 ∧
                            56320 + (c.toNat - 65536) % 1024 ≤ 57343)]
                      simp only [hrec]
                      rw [show 55296 + (c.toNat - 65536) / 1024 - 55296 =
                            (c.toNat - 65536) / 1024 by omega,
                          show 56320 + (c.toNat - 65536) % 1024 - 56320 =
                            (c.toNat - 65536) % 1024 by omega,
                          show 65536 + (c.toNat - 65536) / 1024 * 1024 +
                            (c.toNat - 65536) % 1024 = c.toNat by omega,
                          Char.ofNat_toNat]

/-- `skipWs` leaves a list alone when its head is not whitespace. -/
theorem skipWs_cons_not_ws {c : Char} (h : isWsChar c = false) (l : List Char) :
    skipWs (c :: l) = c :: l := by
  simp [skipWs, List.dropWhile_cons, h]

/-- `skipWs` consumes a whitespace head. -/
theorem skipWs_cons_ws {c : Char} (h : isWsChar c = true) (l : List Char) :
    skipWs (c :: l) = skipWs l := by
  simp [skipWs, List.dropWhile_cons, h]

/-- Every escape sequence is nonempty. -/
theorem one_le_escChar_length (c : Char) : 1 ≤ (escChar c).length := by
  unfold escChar
  repeat' split
  all_goals simp [hex4]

/-- Escaping does not shorten a character sequence. -/
theorem length_le_escList (s : List Char) : s.length ≤ (escList s).length := by
  induction s with
  | nil => simp [escList]
  | cons c s ih =>
    have h := one_le_escChar_length c
    simp only [escList, List.map_cons, List.flatten_cons, List.length_append,
      List.length_cons]
    simp only [escList] at ih
    omega

/-- The characters printed by `Nat.digitChar` on digit values are decimal
digits. -/
theorem digitChar_isDigit : ∀ d, d < 10 → isDigitChar (Nat.digitChar d) = true := by
  decide

/-- The code point of a printed digit. -/
theorem digitChar_toNat48 : ∀ d, d < 10 → (Nat.digitChar d).toNat = 48 + d := by
  decide

/-- All characters of `natChars n` are decimal digits. -/
theorem natChars_digits (n : Nat) : ∀ c ∈ natChars n, isDigitChar c = true := by
  unfold natChars
  split
  · intro c hc
    simp at hc
    subst hc
    decide
  · intro c hc
    simp only [List.mem_reverse, List.mem_map] at hc
    obtain ⟨d, hd, rfl⟩ := hc
    exact digitChar_isDigit d (Nat.digits_lt_base (by norm_num) hd)

/-- `natChars n` is never empty. -/
theorem natChars_ne_nil (n : Nat) : natChars n ≠ [] := by
  unfold natChars
  split
  · simp
  · simp [Nat.digits_ne_nil_iff_ne_zero, *]

/-- `takeWhile`/`dropWhile` split an `l ++ r` at the boundary when all of
`l` satisfies the predicate and the head of `r` does not. -/
theorem takeWhile_dropWhile_append {α : Type} (p : α → Bool) (l r : List α)
    (hl : ∀ a ∈ l, p a = true) (hr : ∀ a, r.head? = some a → p a = false) :
    (l ++ r).takeWhile p = l ∧ (l ++ r).dropWhile p = r := by
  induction l with
  | nil =>
    cases r with
    | nil => simp
    | cons a r' =>
      have := hr a rfl
      simp [List.takeWhile_cons, List.dropWhile_cons, this]
  | cons a l' ih =>
    have ha := hl a (by simp)
    have ih' := ih (fun x hx => hl x (by simp [hx]))
    simp [List.takeWhile_cons, List.dropWhile_cons, ha, ih'.1, ih'.2]

/-- Evaluating the digit-accumulating fold over a printed digit string. -/
theorem foldl_digitChars (l : List Nat) (hl : ∀ d ∈ l, d < 10) :
    ∀ a : Nat,
      ((l.map Nat.digitChar).reverse).foldl (fun acc c => acc * 10 + (c.toNat - 48)) a
        = a * 10 ^ l.length + Nat.ofDigits 10 l := by
  induction l with
  | nil => intro a; simp [Nat.ofDigits_nil]
  | cons d t ih =>
    intro a
    have hd := hl d (by simp)
    have ih' := ih (fun x hx => hl x (by simp [hx])) a
    simp only [List.map_cons, List.reverse_cons, List.foldl_append, List.foldl_cons,
      List.foldl_nil, ih', Nat.ofDigits_cons, List.length_cons]
    rw [digitChar_toNat48 d hd]
    rw [pow_succ]
    ring_nf
    omega

/-- `parseNat` inverts `natChars` when the remainder does not begin with a
digit. -/
theorem parseNat_natChars (n : Nat) (rest : List Char)
    (hrest : ∀ a, rest.head? = some a → isDigitChar a = false) :
    parseNat (natChars n ++ rest) = some (n, rest) := by
  have hsplit := takeWhile_dropWhile_append isDigitChar (natChars n) rest
    (natChars_digits n) hrest
  have hne := natChars_ne_nil n
  unfold parseNat
  simp only [hsplit.1, hsplit.2]
  rw [if_neg (by simpa [List.isEmpty_iff] using hne)]
  refine congrArg some (Prod.ext ?_ rfl)
  show (natChars n).foldl (fun acc c => acc * 10 + (c.toNat - 48)) 0 = n
  unfold natChars
  split
  · subst n
    decide
  · rw [foldl_digitChars (Nat.digits 10 n)
      (fun d hd => Nat.digits_lt_base (by norm_num) hd) 0]
    simp [Nat.ofDigits_digits]


/-- A digit head is not whitespace and not one of the value-start
characters checked before the digit branch of `parseValue`. -/
theorem digit_not_special {c : Char} (h : isDigitChar c = true) :
    isWsChar c = false ∧ ¬ c = qc ∧ ¬ c = openBrace ∧ ¬ c = '[' := by
  have h' : 48 ≤ c.toNat ∧ c.toNat ≤ 57 := by
    simpa [isDigitChar, Bool.and_eq_true, decide_eq_true_eq] using h
  refine ⟨?_, ?_, ?_, ?_⟩
  · simp only [isWsChar, Bool.or_eq_false_iff, decide_eq_false_iff_not]
    omega
  · intro he; rw [he] at h; exact absurd h (by decide)
  · intro he; rw [he] at h; exact absurd h (by decide)
  · intro he; rw [he] at h; exact absurd h (by decide)

/-- `parseValue` inverts `dumpVal` on flat (string or integer) values
when the remainder does not begin with a digit. -/
theorem parseValue_dumpVal_flat (v : Json) (rest : List Char) (fuel : Nat)
    (hv : flatVal v = true)
    (hrest : ∀ a, rest.head? = some a → isDigitChar a = false) :
    parseValue (fuel + 1) (dumpVal v ++ rest) = some (v, rest) := by
  cases v with
  | null => simp [flatVal] at hv
  | bool b => simp [flatVal] at hv
  | arr xs => simp [flatVal] at hv
  | obj fs => simp [flatVal] at hv
  | str s =>
    simp only [dumpVal, dumpStr, List.cons_append, List.append_assoc,
      List.singleton_append, List.nil_append]
    simp only [parseValue, skipWs_cons_not_ws (by decide : isWsChar qc = false)]
    rw [if_pos trivial]
    rw [parseStringChars_escList s.data rest _ (by
      have := length_le_escList s.data
      simp only [List.length_append, List.length_cons]
      omega)]
  | num i =>
    by_cases hneg : i < 0
    · simp only [dumpVal, intChars, if_pos hneg, List.cons_append]
      simp only [parseValue, skipWs_cons_not_ws (by decide : isWsChar '-' = false)]
      rw [if_neg (by decide : ¬ ('-' = qc)), if_neg (by decide : ¬ ('-' = openBrace)),
          if_neg (by decide : ¬ ('-' = '[')),
          if_neg (by decide : ¬ (isDigitChar '-' = true)), if_pos trivial]
      rw [parseNat_natChars i.natAbs rest hrest]
      show some (Json.num (-((i.natAbs : Int))), rest) = some (Json.num i, rest)
      rw [show -((i.natAbs : Int)) = i by omega]
    · simp only [dumpVal, intChars, if_neg hneg]
      obtain ⟨c, cs, heq⟩ : ∃ c cs, natChars i.toNat = c :: cs := by
        cases hn : natChars i.toNat with
        | nil => exact absurd hn (natChars_ne_nil _)
        | cons c cs => exact ⟨c, cs, rfl⟩
      have hcd : isDigitChar c = true := natChars_digits i.toNat c (by rw [heq]; simp)
      have hsp := digit_not_special hcd
      rw [heq]
      simp only [List.cons_append]
      simp only [parseValue, skipWs_cons_not_ws hsp.1]
      rw [if_neg hsp.2.1, if_neg hsp.2.2.1, if_neg hsp.2.2.2, if_pos hcd]
      rw [show c :: (cs ++ rest) = natChars i.toNat ++ rest by rw [heq]; simp]
      rw [parseNat_natChars i.toNat rest hrest]
      show some (Json.num ((i.toNat : Int)), rest) = some (Json.num i, rest)
      rw [show ((i.toNat : Int)) = i by omega]

/-- The escape round-trip at the fuel value used by the parser. -/
theorem parseStringChars_escList_self (s rest : List Char) :
    parseStringChars ((escList s ++ qc :: rest).length + 1) (escList s ++ qc :: rest)
      = some (s, rest) := by
  refine parseStringChars_escList s rest _ ?_
  have := length_le_escList s
  simp only [List.length_append, List.length_cons]
  omega

/-- `parseValue` ignores a leading space. -/
theorem parseValue_cons_ws (f : Nat) {c : Char} (h : isWsChar c = true) (cs : List Char) :
    parseValue (f + 1) (c :: cs) = parseValue (f + 1) cs := by
  simp only [parseValue, skipWs_cons_ws h]

/-- `parseMembers` ignores a leading space. -/
theorem parseMembers_cons_ws (f : Nat) {c : Char} (h : isWsChar c = true) (cs : List Char) :
    parseMembers (f + 1) (c :: cs) = parseMembers (f + 1) cs := by
  simp only [parseMembers, skipWs_cons_ws h]

/-- `parseMembers` inverts `dumpFields` on nonempty flat member lists,
consuming the closing brace. -/
theorem parseMembers_dumpFields :
    ∀ (fl : List (String × Json)) (rest : List Char) (fuel : Nat),
      fl ≠ [] → (∀ p ∈ fl, flatVal p.2 = true) → fl.length < fuel →
      parseMembers fuel (dumpFields fl ++ closeBrace :: rest) = some (fl, rest) := by
  intro fl
  induction fl with
  | nil => intro rest fuel h; exact absurd rfl h
  | cons p tl ih =>
    intro rest fuel _ hflat hfuel
    have hv : flatVal p.2 = true := hflat p (by simp)
    match fuel, hfuel with
    | f + 1, hfuel =>
    cases tl with
    | nil =>
      simp only [dumpFields, dumpStr, List.cons_append, List.append_assoc,
        List.singleton_append, List.nil_append]
      simp only [parseMembers, skipWs_cons_not_ws (by decide : isWsChar qc = false)]
      rw [if_pos trivial]
      rw [parseStringChars_escList_self p.1.data
        (':' :: ' ' :: (dumpVal p.2 ++ closeBrace :: rest))]
      simp only [skipWs_cons_not_ws (by decide : isWsChar ':' = false)]
      rw [if_pos trivial]
      obtain ⟨f', rfl⟩ : ∃ f', f = f' + 1 := ⟨f - 1, by simp at hfuel; omega⟩
      rw [parseValue_cons_ws f' (by decide : isWsChar ' ' = true)]
      rw [parseValue_dumpVal_flat p.2 (closeBrace :: rest) f' hv
        (by intro a ha; simp at ha; subst ha; decide)]
      simp only [skipWs_cons_not_ws (by decide : isWsChar closeBrace = false)]
      rw [if_neg (by decide : ¬ (closeBrace = ',')), if_pos trivial]
    | cons q tl' =>
      simp only [dumpFields, dumpStr, List.cons_append, List.append_assoc,
        List.singleton_append, List.nil_append]
      simp only [parseMembers, skipWs_cons_not_ws (by decide : isWsChar qc = false)]
      rw [if_pos trivial]
      rw [parseStringChars_escList_self p.1.data
        (':' :: ' ' :: (dumpVal p.2 ++ ',' :: ' ' :: (dumpFields (q :: tl') ++ closeBrace :: rest)))]
      simp only [skipWs_cons_not_ws (by decide : isWsChar ':' = false)]
      rw [if_pos trivial]
      obtain ⟨f', rfl⟩ : ∃ f', f = f' + 1 := ⟨f - 1, by simp at hfuel; omega⟩
      rw [parseValue_cons_ws f' (by decide : isWsChar ' ' = true)]
      rw [parseValue_dumpVal_flat p.2
        (',' :: ' ' :: (dumpFields (q :: tl') ++ closeBrace :: rest)) f' hv
        (by intro a ha; simp at ha; subst ha; decide)]
      simp only [skipWs_cons_not_ws (by decide : isWsChar ',' = false)]
      rw [if_pos trivial]
      rw [parseMembers_cons_ws f' (by decide : isWsChar ' ' = true)]
      rw [ih rest (f' + 1) (by simp) (fun x hx => hflat x (by simp [hx]))
        (by simp at hfuel ⊢; omega)]

/-- `String.mk` and `String.data` are inverse. -/
theorem data_mk (cs : List Char) : (String.mk cs).data = cs := rfl

/-- Serializing a member list yields at least one character per member. -/
theorem length_le_dumpFields :
    ∀ fl : List (String × Json), fl.length ≤ (dumpFields fl).length := by
  intro fl
  induction fl with
  | nil => simp [dumpFields]
  | cons p tl ih =>
    cases tl with
    | nil => simp [dumpFields, dumpStr]
    | cons q tl' =>
      simp only [dumpFields, dumpStr, List.length_cons, List.length_append] at ih ⊢
      omega

/-- A serialized nonempty member list starts with a quote. -/
theorem dumpFields_head (p : String × Json) (tl : List (String × Json)) :
    ∃ X, dumpFields (p :: tl) = qc :: X := by
  cases tl with
  | nil =>
    refine ⟨escList p.1.data ++ qc :: ':' :: ' ' :: dumpVal p.2, ?_⟩
    simp [dumpFields, dumpStr]
  | cons q tl' =>
    refine ⟨escList p.1.data ++ qc :: ':' :: ' ' ::
      (dumpVal p.2 ++ ',' :: ' ' :: dumpFields (q :: tl')), ?_⟩
    simp [dumpFields, dumpStr]

/-- `Json.parse` inverts `Json.dumps` on nonempty objects whose member
values are strings or integers — the shape `JSONFormatter.format`
produces. -/
theorem parse_dumps_flat_obj (fl : List (String × Json)) (hne : fl ≠ [])
    (hflat : ∀ p ∈ fl, flatVal p.2 = true) :
    Json.parse (Json.dumps (.obj fl)) = some (.obj fl) := by
  obtain ⟨P, hP⟩ : ∃ X, dumpFields fl = qc :: X := by
    cases fl with
    | nil => exact absurd rfl hne
    | cons p tl => exact dumpFields_head p tl
  have hlen := length_le_dumpFields fl
  unfold Json.dumps Json.parse
  simp only [dumpVal, data_mk, hP, List.cons_append, List.length_cons]
  simp only [parseValue, skipWs_cons_not_ws (by decide : isWsChar openBrace = false)]
  rw [if_neg (by decide : ¬ (openBrace = qc)), if_pos trivial]
  simp only [skipWs_cons_not_ws (by decide : isWsChar qc = false)]
  rw [if_neg (by decide : ¬ (qc = closeBrace))]
  rw [show qc :: (P ++ [closeBrace]) = dumpFields fl ++ closeBrace :: [] from by
    rw [hP]; rfl]
  rw [parseMembers_dumpFields fl [] ((P ++ [closeBrace]).length + 2) hne hflat (by
    rw [hP] at hlen
    simp only [List.length_cons, List.length_append] at hlen ⊢
    omega)]
  simp [skipWs]

/-- A successful first-match lookup needs a nonempty list. -/
theorem lookupFirst_some_ne_nil {fs' : List (String × Json)} {k : String} {v : Json}
    (h : lookupFirst fs' k = some v) : fs' ≠ [] := by
  intro he
  subst he
  simp [lookupFirst] at h

/-- If some element of the list raises, the whole comprehension raises. -/
theorem mapExcept_error_of_mem {f : Json → Except PyErr String} {x : Json}
    {l : List Json} (hx : x ∈ l) {e : PyErr} (hfx : f x = .error e) :
    ∃ e', mapExcept f l = .error e' := by
  induction l with
  | nil => cases hx
  | cons y tl ih =>
    cases hy : f y with
    | error e2 => exact ⟨e2, by simp [mapExcept, hy, Bind.bind, Except.bind]⟩
    | ok r =>
      rcases List.mem_cons.mp hx with rfl | hx'
      · rw [hy] at hfx; cases hfx
      · obtain ⟨e', he'⟩ := ih hx'
        exact ⟨e', by simp [mapExcept, hy, he', Bind.bind, Except.bind]⟩

/-- First-match lookup distributes over append. -/
theorem lookupFirst_append (l1 l2 : List (String × Json)) (k : String) :
    lookupFirst (l1 ++ l2) k =
      (match lookupFirst l1 k with
       | some v => some v
       | none => lookupFirst l2 k) := by
  induction l1 with
  | nil => simp [lookupFirst]
  | cons p tl ih =>
    obtain ⟨k1, v1⟩ := p
    by_cases h : k1 = k
    · simp [lookupFirst, h]
    · simp [lookupFirst, h, ih]

/-- Parsing the formatter's rendered output recovers the `log_record`
member list exactly. -/
theorem parse_format (ctx : FormatContext) (env : String → Option String)
    (record : LogRecord) :
    Json.parse (JSONFormatter.format ctx env record)
      = some (.obj (formatFields ctx env record)) := by
  apply parse_dumps_flat_obj
  · simp [formatFields]
  · intro p hp
    simp only [formatFields, List.mem_append, List.mem_cons, List.not_mem_nil,
      or_false] at hp
    rcases hp with hp | hp
    · rcases hp with rfl | rfl | rfl | rfl | rfl | rfl | rfl | rfl | rfl | rfl |
        rfl | rfl | rfl | rfl | rfl <;> rfl
    · cases hE : record.excInfo with
      | some e => rw [hE] at hp; simp at hp; rw [hp]; rfl
      | none =>
        rw [hE] at hp
        cases hD : record.errorDetails with
        | some s => rw [hD] at hp; simp at hp; rw [hp]; rfl
        | none => rw [hD] at hp; simp at hp

/-- Claim C1: for every logger threshold and every outcome of the
outbound HTTP GET (2xx success, non-2xx HTTP status error, timeout, or
any other exception, including a JSON-decode failure of a 2xx body),
`make_nws_request` returns normally — the decoded JSON document on
success and `none` on every failure kind.  The three `except` clauses
cover every exception the `try` block can raise, so no exception escapes
to the caller. -/
theorem make_nws_request_returns_value_or_none
    (threshold : LogLevel) (w : HttpResult) :
    (make_nws_request threshold w).1 =
      (match w with
       | .response status (some j) =>
         if 200 ≤ status ∧ status < 300 then some j else none
       | _ => none) := by
  cases w with
  | response status body =>
    cases body with
    | some j =>
      by_cases h : 200 ≤ status ∧ status < 300 <;>
        simp [make_nws_request, makeNwsRequestTry, h]
    | none =>
      by_cases h : 200 ≤ status ∧ status < 300 <;>
        simp [make_nws_request, makeNwsRequestTry, h]
  | timeout => simp [make_nws_request, makeNwsRequestTry]
  | connectionError => simp [make_nws_request, makeNwsRequestTry]

/-- Claim C2 (counterexample): at the default INFO threshold it is not
the case that every call to `make_nws_request` emits exactly one log
record.  At the explicit input `HttpResult.response 200 none` — a 2xx
response whose body fails to decode as JSON — the success info record
has already been emitted when `response.json()` raises, and the
catch-all handler then emits a second, error record. -/
theorem make_nws_request_not_always_one_log :
    ¬ (∀ w : HttpResult, ((make_nws_request LogLevel.info w).2).length = 1) :=
  fun h => absurd (h (.response 200 none)) (by decide)

/-- Claim C2 (amended): at the default INFO threshold, a call to
`make_nws_request` emits exactly one log record in the success,
HTTP-status-error and timeout branches and in every unexpected-exception
branch reached before the success log — but exactly two records (the
info record and the error record) when a 2xx response body fails to
decode as JSON. -/
theorem make_nws_request_log_count (w : HttpResult) :
    ((make_nws_request LogLevel.info w).2).length =
      (match w with
       | .response status none => if 200 ≤ status ∧ status < 300 then 2 else 1
       | _ => 1) := by
  cases w with
  | response status body =>
    cases body with
    | some j =>
      by_cases h : 200 ≤ status ∧ status < 300 <;>
        simp [make_nws_request, makeNwsRequestTry, h, emit, LogLevel.toNat]
    | none =>
      by_cases h : 200 ≤ status ∧ status < 300 <;>
        simp [make_nws_request, makeNwsRequestTry, h, emit, LogLevel.toNat]
  | timeout => simp [make_nws_request, makeNwsRequestTry, emit, LogLevel.toNat]
  | connectionError => simp [make_nws_request, makeNwsRequestTry, emit, LogLevel.toNat]

/-- Claim C3: `get_alerts` returns the fetch-failure fallback when the
fetch returns absence or the payload is an object without a `features`
key; returns the no-alerts message when the `features` list is empty;
and otherwise (when every feature formats successfully) returns the
formatted features joined with the `---` separator line. -/
theorem get_alerts_branch_spec (fs' : List (String × Json)) (fs : List Json)
    (ss : List String) :
    (get_alerts none = "Unable to fetch alerts or no alerts found.") ∧
    (lookupFirst fs' "features" = none →
      get_alerts (some (.obj fs')) = "Unable to fetch alerts or no alerts found.") ∧
    (lookupFirst fs' "features" = some (.arr []) →
      get_alerts (some (.obj fs')) = "No active alerts for this state.") ∧
    (lookupFirst fs' "features" = some (.arr fs) → fs ≠ [] →
      mapExcept format_alert fs = .ok ss →
      get_alerts (some (.obj fs')) = "\n---\n".intercalate ss) := by
  refine ⟨rfl, ?_, ?_, ?_⟩
  · intro h
    cases fs' with
    | nil => rfl
    | cons p tl =>
      simp [get_alerts, getAlertsBody, Json.truthy, pyContains, h,
            Bind.bind, Except.bind, Pure.pure, Except.pure]
  · intro h
    cases fs' with
    | nil => simp [lookupFirst] at h
    | cons p tl =>
      simp [get_alerts, getAlertsBody, Json.truthy, pyContains, Json.getItem, h,
            Bind.bind, Except.bind, Pure.pure, Except.pure]
  · intro h hne hmap
    cases fs' with
    | nil => simp [lookupFirst] at h
    | cons p tl =>
      cases fs with
      | nil => exact absurd rfl hne
      | cons x fs'' =>
        simp [get_alerts, getAlertsBody, Json.truthy, pyContains, Json.getItem, h,
              pyIter, hmap, Bind.bind, Except.bind, Pure.pure, Except.pure]

/-- Claim C3 (witness): a payload with one well-formed `Flood Warning`
feature is formatted and joined. -/
theorem get_alerts_branch_spec_witness :
    lookupFirst exAlertsFields "features" = some (.arr [exFeature]) ∧
    get_alerts (some (.obj exAlertsFields)) = "\n---\n".intercalate [exAlertText] :=
  ⟨rfl, (get_alerts_branch_spec exAlertsFields [exFeature] [exAlertText]).2.2.2
    rfl (by simp) rfl⟩

/-- Claim C4: in a successful end-to-end `get_forecast` call whose
forecast payload holds the period list `ps` (e.g. with more than five
periods), only `ps.take 5` is formatted, the results are joined with the
`---` separator, and both fetches are performed exactly once — periods
after the fifth cannot influence the returned string. -/
theorem get_forecast_first_five (fetch : Nat → Option Json) (d1 d2 u pr : Json)
    (ps : List Json) (ss : List String)
    (h0 : fetch 0 = some d1) (h0t : d1.truthy = true)
    (hurl : (d1.getItem "properties" >>= fun p => p.getItem "forecast") = .ok u)
    (h1 : fetch 1 = some d2) (h1t : d2.truthy = true)
    (hp2 : d2.getItem "properties" = .ok pr)
    (hper : pr.getItem "periods" = .ok (.arr ps))
    (hlen : 5 < ps.length)
    (hfmt : mapExcept formatPeriod (ps.take 5) = .ok ss) :
    get_forecast fetch = ("\n---\n".intercalate ss, 2) := by
  simp only [Bind.bind, Except.bind] at hurl
  simp [get_forecast, getForecastBody, h0, h0t, hurl, h1, h1t, hp2, hper, pySlice,
        pyIter, hfmt, Bind.bind, Except.bind, Pure.pure, Except.pure]

/-- Claim C4 (witness): with seven periods available only the first five
formatted periods appear in the result. -/
theorem get_forecast_first_five_witness :
    5 < exPeriods.length ∧
    get_forecast exFetch =
      ("\n---\n".intercalate
        [exPeriodText, exPeriodText, exPeriodText, exPeriodText, exPeriodText], 2) :=
  ⟨by decide,
   get_forecast_first_five exFetch exPoints exForecastPayload (.str "u")
     (.obj [("periods", .arr exPeriods)]) exPeriods
     [exPeriodText, exPeriodText, exPeriodText, exPeriodText, exPeriodText]
     rfl rfl rfl rfl rfl rfl rfl (by decide) rfl⟩

/-- Claim C5: when the first (points) fetch returns absence,
`get_forecast` returns the location fallback string and performs exactly
one fetch — the second (forecast) fetch is never attempted. -/
theorem get_forecast_points_absence (fetch : Nat → Option Json)
    (h : fetch 0 = none) :
    get_forecast fetch = ("Unable to fetch forecast data for this location.", 1) := by
  simp [get_forecast, getForecastBody, h]

/-- Claim C5 (witness): the all-absent fetch oracle. -/
theorem get_forecast_points_absence_witness :
    (fun _ : Nat => (none : Option Json)) 0 = none ∧
    get_forecast (fun _ => none) = ("Unable to fetch forecast data for this location.", 1) :=
  ⟨rfl, get_forecast_points_absence (fun _ => none) rfl⟩

/-- Claim C6: `get_alerts` and `get_forecast` are total string-valued
functions, and whenever the body of either operation raises (for
example, a key lookup on a malformed but successful payload), the
`except Exception` wrapper converts the failure into the generic
fallback string instead of propagating it to the transport layer. -/
theorem operations_catch_formatting_failures (data : Option Json)
    (fetch : Nat → Option Json) :
    (∀ e, getAlertsBody data = .error e →
      get_alerts data = "An error occurred while fetching alerts.") ∧
    (∀ e n, getForecastBody fetch = (.error e, n) →
      get_forecast fetch = ("An error occurred while fetching forecast.", n)) := by
  constructor
  · intro e he; simp [get_alerts, he]
  · intro e n he; simp [get_forecast, he]

/-- Claim C6 (witness): a numeric payload makes both bodies raise
`TypeError`, and both operations return their generic fallback. -/
theorem operations_catch_formatting_failures_witness :
    get_alerts (some (.num 1)) = "An error occurred while fetching alerts." ∧
    get_forecast (fun _ => some (.num 1)) = ("An error occurred while fetching forecast.", 1) :=
  ⟨(operations_catch_formatting_failures (some (.num 1)) (fun _ => some (.num 1))).1
     .typeError rfl,
   (operations_catch_formatting_failures (some (.num 1)) (fun _ => some (.num 1))).2
     .typeError 1 rfl⟩

/-- Claim C7: parsing the JSON rendered by `JSONFormatter.format` back
yields exactly the `log_record` object; every fixed field of the Log
Record is present with a non-null value; and the `duration` field equals
the literal string `0.0s` whenever no duration was supplied with the
record. -/
theorem json_formatter_roundtrip (ctx : FormatContext)
    (env : String → Option String) (record : LogRecord) :
    Json.parse (JSONFormatter.format ctx env record)
      = some (.obj (formatFields ctx env record)) ∧
    (∀ k ∈ fixedLogFields, ∃ v,
      lookupFirst (formatFields ctx env record) k = some v ∧ v ≠ Json.null) ∧
    (record.duration = none →
      lookupFirst (formatFields ctx env record) "duration" = some (.str "0.0s")) := by
  refine ⟨parse_format ctx env record, ?_, ?_⟩
  · intro k hk
    fin_cases hk <;> exact ⟨_, rfl, nofun⟩
  · intro h
    simp [formatFields, lookupFirst, h, List.cons_append]

/-- Claim C7 (witness): a concrete record with no duration attribute. -/
theorem json_formatter_roundtrip_witness :
    Json.parse (JSONFormatter.format exCtx exEnv exRecord)
        = some (.obj (formatFields exCtx exEnv exRecord)) ∧
    (∃ v, lookupFirst (formatFields exCtx exEnv exRecord) "timestamp" = some v ∧
      v ≠ Json.null) ∧
    lookupFirst (formatFields exCtx exEnv exRecord) "duration" = some (.str "0.0s") := by
  have h := json_formatter_roundtrip exCtx exEnv exRecord
  exact ⟨h.1, h.2.1 "timestamp" (by simp [fixedLogFields]), h.2.2 rfl⟩

/-- Claim C8: the serialized `error_details` member equals the attached
exception's full formatted stack trace when an exception is present (the
exception takes precedence over a supplied `error_details` attribute);
equals the supplied string when only the attribute is present; and is
omitted when neither is present. -/
theorem error_details_precedence (ctx : FormatContext)
    (env : String → Option String) (record : LogRecord) :
    Json.parse (JSONFormatter.format ctx env record)
      = some (.obj (formatFields ctx env record)) ∧
    (∀ e, record.excInfo = some e →
      lookupFirst (formatFields ctx env record) "error_details"
        = some (.str e.formattedTrace)) ∧
    (∀ s, record.excInfo = none → record.errorDetails = some s →
      lookupFirst (formatFields ctx env record) "error_details" = some (.str s)) ∧
    (record.excInfo = none → record.errorDetails = none →
      lookupFirst (formatFields ctx env record) "error_details" = none) := by
  refine ⟨parse_format ctx env record, ?_, ?_, ?_⟩
  · intro e he
    simp [formatFields, lookupFirst, he, List.cons_append]
  · intro s he hd
    simp [formatFields, lookupFirst, he, hd, List.cons_append]
  · intro he hd
    simp [formatFields, lookupFirst, he, hd, List.cons_append]

/-- Claim C8 (witness): a record carrying both an attached exception and
a supplied `error_details` string serializes the exception's formatted
stack trace. -/
theorem error_details_precedence_witness :
    exRecordExc.excInfo = some exExc ∧
    lookupFirst (formatFields exCtx exEnv exRecordExc) "error_details"
      = some (.str "Traceback: boom") := by
  have h := error_details_precedence exCtx exEnv exRecordExc
  exact ⟨rfl, h.2.1 exExc rfl⟩

/-- Claim C10: when the features list is non-empty but some feature is
an object lacking the `properties` key, the raising subscript inside
`format_alert` is caught by the operation's handler, so `get_alerts`
returns the generic error string and not the fetch-failure fallback —
while keys missing inside `properties` itself are tolerated via `.get`
defaulting. -/
theorem get_alerts_missing_properties_generic (fs' : List (String × Json))
    (fs : List Json) (gs : List (String × Json))
    (hf : lookupFirst fs' "features" = some (.arr fs))
    (hmem : Json.obj gs ∈ fs) (hgs : lookupFirst gs "properties" = none) :
    (get_alerts (some (.obj fs')) = "An error occurred while fetching alerts." ∧
     get_alerts (some (.obj fs')) ≠ "Unable to fetch alerts or no alerts found.") ∧
    format_alert (.obj [("properties", .obj [])]) =
      .ok ("\nEvent: Unknown\nArea: Unknown\nSeverity: Unknown" ++
           "\nDescription: No description available" ++
           "\nInstructions: No specific instructions provided\n") := by
  have herr : format_alert (.obj gs) = .error .keyError := by
    simp [format_alert, Json.getItem, hgs, Bind.bind, Except.bind]
  obtain ⟨e', he'⟩ := mapExcept_error_of_mem hmem herr
  have hne : fs ≠ [] := by intro h; subst h; cases hmem
  have hmain : get_alerts (some (.obj fs')) = "An error occurred while fetching alerts." := by
    cases fs' with
    | nil => simp [lookupFirst] at hf
    | cons p tl =>
      cases fs with
      | nil => exact absurd rfl hne
      | cons x fs'' =>
        simp [get_alerts, getAlertsBody, Json.truthy, pyContains, Json.getItem, hf,
              pyIter, he', Bind.bind, Except.bind, Pure.pure, Except.pure]
  exact ⟨⟨hmain, by rw [hmain]; decide⟩, rfl⟩

/-- Claim C10 (witness): one feature without a `properties` key. -/
theorem get_alerts_missing_properties_generic_witness :
    Json.obj [] ∈ [Json.obj []] ∧
    get_alerts (some (.obj [("features", .arr [Json.obj []])])) =
      "An error occurred while fetching alerts." := by
  have h := get_alerts_missing_properties_generic
    [("features", .arr [Json.obj []])] [Json.obj []] [] rfl (by simp) rfl
  exact ⟨by simp, h.1.1⟩
